import Mathlib

/-!
Shallow embedding of the cycle/pattern analytics core of the peri-tracker
repository, together with proofs about its specification.

Source files embedded:
* the pattern-analysis module (`analyzePatterns`, `analyzeDayOfWeekPatterns`,
  `analyzeSleepCorrelation`, `analyzeMoodPatterns`, `analyzeCyclePatterns`,
  `analyzeSymptomsByCyclePhase`, `getSymptomCorrelations`, `getTrends`);
* `getCycleStats` from `src/database/database.js`, including the effect of its
  SQL query (`WHERE end_date IS NOT NULL ORDER BY start_date DESC LIMIT 12`);
* the `CYCLE_PHASES` day tables from the constants module.

Modelling conventions:
* Dates are integers: milliseconds since the Unix epoch (the repository stores
  ISO `YYYY-MM-DD` strings, which `new Date` parses to UTC midnight, i.e. to a
  multiple of 86400000 ms).
* JS truthiness tests on optional numeric fields (`l.mood_overall`,
  `p.length`, ...) are modelled by `jsTruthyInt` / `jsTruthyRat`
  (present and nonzero).
* JS `Array.prototype.sort` with a consistent comparator and the SQL
  `ORDER BY` are modelled by `List.insertionSort` (a stable sort).
* JS numbers are modelled by `ℚ`; `Math.round x` is `⌊x + 1/2⌋`,
  `Math.ceil` is `Int.ceil`.
* A JS division whose denominator is zero yields `NaN`; where the source can
  only reach such a division with a nonzero denominator we model the value as
  an `Option` that is `none` exactly in the denominator-zero case.
-/

namespace PeriTracker

/-- Milliseconds per day, the divisor used throughout the source. -/
def msPerDay : ℤ := 86400000

/-- JS truthiness of an optional integer field (present and nonzero). -/
def jsTruthyInt : Option ℤ → Bool
  | none => false
  | some v => v != 0

/-- JS truthiness of an optional rational field (present and nonzero). -/
def jsTruthyRat : Option ℚ → Bool
  | none => false
  | some v => v != 0

/-- JS `Math.round`: round half toward positive infinity. -/
def jsRound (q : ℚ) : ℤ := ⌊q + 1/2⌋

/-- One symptom entry of a daily log (`{symptom_id, severity}`). -/
structure Symptom where
  symptom_id : String
  severity : ℤ
deriving DecidableEq, Repr, Inhabited

/-- One daily log row, as consumed by the analytics functions. -/
structure DailyLog where
  date : ℤ
  mood_overall : Option ℤ
  mood_anxiety : Option ℤ
  mood_energy : Option ℤ
  sleep_hours : Option ℚ
  sleep_quality : Option ℤ
  symptoms : List Symptom
deriving DecidableEq, Repr, Inhabited

/-- One `cycle_periods` row. -/
structure CyclePeriod where
  start_date : ℤ
  end_date : Option ℤ
  length : Option ℤ
deriving DecidableEq, Repr, Inhabited

/-- The record returned by `getCycleStats`. -/
structure CycleStats where
  averageCycleLength : Option ℤ
  averagePeriodLength : Option ℤ
  cycleLengths : List ℤ
  periodLengths : List ℤ
  cycles : List CyclePeriod
deriving DecidableEq, Repr, Inhabited

/-- An insight record `{icon, text}`. -/
structure Insight where
  icon : String
  text : String
deriving DecidableEq, Repr, Inhabited

/-- The record returned by `analyzePatterns`. -/
structure PatternResult where
  insights : List Insight
deriving DecidableEq, Repr, Inhabited

/-- The record returned by `getTrends` (when non-null).
`symptomTrend` is `none` exactly when one of the JS divisions would have a
zero denominator (JS `NaN`). -/
structure TrendSummary where
  moodTrend : Option ℚ
  energyTrend : Option ℚ
  symptomTrend : Option ℚ
  periodStart : ℤ
  periodEnd : ℤ
  periodDays : ℕ
deriving DecidableEq, Repr, Inhabited

/-! ### getTrends -/

/-- Comparator of `sortedLogs = [...logs].sort((a, b) => new Date(a.date) - new Date(b.date))`. -/
def dateLe (a b : DailyLog) : Prop := a.date ≤ b.date

instance : DecidableRel dateLe := fun a b => inferInstanceAs (Decidable (a.date ≤ b.date))

instance : IsTotal DailyLog dateLe := ⟨fun a b => Int.le_total a.date b.date⟩

instance : IsTrans DailyLog dateLe := ⟨fun _ _ _ h1 h2 => le_trans h1 h2⟩

/-- `[...logs].sort((a, b) => new Date(a.date) - new Date(b.date))`. -/
def sortedByDate (logs : List DailyLog) : List DailyLog := logs.insertionSort dateLe

/-- `const midpoint = Math.floor(sortedLogs.length / 2)`. -/
def trendMid (logs : List DailyLog) : ℕ := (sortedByDate logs).length / 2

/-- `const firstHalf = sortedLogs.slice(0, midpoint)`. -/
def trendFirstHalf (logs : List DailyLog) : List DailyLog :=
  (sortedByDate logs).take (trendMid logs)

/-- `const secondHalf = sortedLogs.slice(midpoint)`. -/
def trendSecondHalf (logs : List DailyLog) : List DailyLog :=
  (sortedByDate logs).drop (trendMid logs)

/-- Sum of the symptom-list lengths over logs
(`reduce((sum, l) => sum + (l.symptoms?.length || 0), 0)`). -/
def totalSymptoms (ls : List DailyLog) : ℕ := (ls.map (fun l => l.symptoms.length)).sum

/-- Mean of an optional integer field over the logs where it is truthy:
the `filter`/`reduce`/`count` pattern used for `moodTrend` and `energyTrend`.
`none` when no log in the half has the field (the JS code guards on
`count > 0` before dividing). -/
def halfFieldMean (get : DailyLog → Option ℤ) (half : List DailyLog) : Option ℚ :=
  let withField := half.filter (fun l => jsTruthyInt (get l))
  if 0 < withField.length then
    some (((withField.map (fun l => (get l).getD 0)).sum : ℚ) / withField.length)
  else none

/-- `getTrends(logs)` from the pattern-analysis module. -/
def getTrends (logs : List DailyLog) : Option TrendSummary :=
  if logs.length < 7 then none
  else
    let sortedLogs := sortedByDate logs
    let firstHalf := trendFirstHalf logs
    let secondHalf := trendSecondHalf logs
    let moodTrend : Option ℚ :=
      match halfFieldMean (fun l => l.mood_overall) firstHalf,
            halfFieldMean (fun l => l.mood_overall) secondHalf with
      | some f, some s => some (s - f)
      | _, _ => none
    let energyTrend : Option ℚ :=
      match halfFieldMean (fun l => l.mood_energy) firstHalf,
            halfFieldMean (fun l => l.mood_energy) secondHalf with
      | some f, some s => some (s - f)
      | _, _ => none
    let symptomTrend : Option ℚ :=
      if 0 < firstHalf.length ∧ 0 < secondHalf.length then
        some ((totalSymptoms secondHalf : ℚ) / secondHalf.length
              - (totalSymptoms firstHalf : ℚ) / firstHalf.length)
      else none
    some
      { moodTrend := moodTrend
        energyTrend := energyTrend
        symptomTrend := symptomTrend
        periodStart := ((sortedLogs.map (fun l => l.date)).headD 0)
        periodEnd := ((sortedLogs.map (fun l => l.date)).getLastD 0)
        periodDays := sortedLogs.length }

/-! ### getCycleStats (database.js) -/

/-- Comparator of the SQL `ORDER BY start_date DESC`. -/
def startDateGe (a b : CyclePeriod) : Prop := b.start_date ≤ a.start_date

instance : DecidableRel startDateGe :=
  fun a b => inferInstanceAs (Decidable (b.start_date ≤ a.start_date))

instance : IsTotal CyclePeriod startDateGe := ⟨fun a b => Int.le_total b.start_date a.start_date⟩

instance : IsTrans CyclePeriod startDateGe := ⟨fun _ _ _ h1 h2 => le_trans h2 h1⟩

/-- The SQL filter `WHERE end_date IS NOT NULL`. -/
def closedPeriods (periods : List CyclePeriod) : List CyclePeriod :=
  periods.filter (fun p => p.end_date.isSome)

/-- The rows the query hands to the JS code:
`WHERE end_date IS NOT NULL ORDER BY start_date DESC LIMIT 12`. -/
def fetchedPeriods (periods : List CyclePeriod) : List CyclePeriod :=
  ((closedPeriods periods).insertionSort startDateGe).take 12

/-- `Math.ceil((current - previous) / (1000 * 60 * 60 * 24))` on ms values. -/
def ceilDays (ms : ℤ) : ℤ := ⌈(ms : ℚ) / (msPerDay : ℚ)⌉

/-- The `for` loop over `i in [0, periods.length - 2]` building `cycleLengths`:
one entry per adjacent pair of fetched rows. -/
def cycleLengthsOf (rows : List CyclePeriod) : List ℤ :=
  (rows.zip rows.tail).map (fun pr => ceilDays (pr.1.start_date - pr.2.start_date))

/-- `getCycleStats` from `src/database/database.js`, as a function of the
full `cycle_periods` table contents. -/
def getCycleStats (periods : List CyclePeriod) : CycleStats :=
  let rows := fetchedPeriods periods
  if rows.length < 2 then
    { averageCycleLength := none
      averagePeriodLength := none
      cycleLengths := []
      periodLengths := []
      cycles := [] }
  else
    let cycleLengths : List ℤ := cycleLengthsOf rows
    let periodLengths : List ℤ := (rows.filter (fun p => jsTruthyInt p.length)).map
      (fun p => p.length.getD 0)
    { averageCycleLength :=
        if 0 < cycleLengths.length then
          some (jsRound (((cycleLengths.sum : ℤ) : ℚ) / cycleLengths.length))
        else none
      averagePeriodLength :=
        if 0 < periodLengths.length then
          some (jsRound (((periodLengths.sum : ℤ) : ℚ) / periodLengths.length))
        else none
      cycleLengths := cycleLengths
      periodLengths := periodLengths
      cycles := rows }

/-- Spec-side notion used by the cycle-length claim: truncate a ms timestamp
to midnight and express it as a calendar-day number. -/
def midnightDay (ms : ℤ) : ℤ := ⌊(ms : ℚ) / (msPerDay : ℚ)⌋

/-! ### analyzePatterns: day-of-week sub-analysis -/

/-- JS `new Date(ms).getDay()` at UTC: weekday index 0 (Sunday) .. 6
(Saturday); the epoch day 0 was a Thursday (index 4). -/
def getDay (ms : ℤ) : ℤ := (ms.fdiv msPerDay + 4) % 7

/-- `const dayNames = ['Sunday', ..., 'Saturday']`. -/
def dayNames : List String :=
  ["Sunday", "Monday", "Tuesday", "Wednesday", "Thursday", "Friday", "Saturday"]

/-- `symptomsByDay[d].count` after the accumulation loop: the loop adds
`log.symptoms.length` (when positive) to the bucket of `getDay(log.date)`,
which totals the symptom counts of the logs falling on weekday `d`. -/
def symptomCountByDay (logs : List DailyLog) (d : ℕ) : ℕ :=
  ((logs.filter (fun l => getDay l.date == (d : ℤ))).map (fun l => l.symptoms.length)).sum

/-- The `dayCounts` array `[{day, count}]` for days 0..6 (object key order). -/
def dayCounts (logs : List DailyLog) : List (ℕ × ℕ) :=
  (List.range 7).map (fun d => (d, symptomCountByDay logs d))

/-- Comparator of `dayCounts.sort((a, b) => b.count - a.count)`. -/
def countGe (a b : ℕ × ℕ) : Prop := b.2 ≤ a.2

instance : DecidableRel countGe := fun a b => inferInstanceAs (Decidable (b.2 ≤ a.2))

instance : IsTotal (ℕ × ℕ) countGe := ⟨fun a b => Nat.le_total b.2 a.2⟩

instance : IsTrans (ℕ × ℕ) countGe := ⟨fun _ _ _ h1 h2 => le_trans h2 h1⟩

instance : IsRefl (ℕ × ℕ) countGe := ⟨fun a => le_refl a.2⟩

/-- `dayCounts` after `dayCounts.sort((a, b) => b.count - a.count)`. -/
def sortedDayCounts (logs : List DailyLog) : List (ℕ × ℕ) :=
  (dayCounts logs).insertionSort countGe

/-- `analyzeDayOfWeekPatterns(logs)`; the list always has 7 entries, so
`dayCounts[0]` is its head and `dayCounts[6]` its last element. -/
def analyzeDayOfWeekPatterns (logs : List DailyLog) : List Insight :=
  let dc := sortedDayCounts logs
  let top := dc.headD (0, 0)
  let bottom := dc.getD 6 (0, 0)
  if (top.2 : ℚ) > (bottom.2 : ℚ) * 1.5 ∧ 3 < top.2 then
    [{ icon := "calendar-week"
       text := "You tend to experience more symptoms on " ++ dayNames.getD top.1 "" ++ "s." }]
  else []

/-! ### analyzePatterns: sleep sub-analysis -/

/-- `analyzeSleepCorrelation(logs)`. -/
def analyzeSleepCorrelation (logs : List DailyLog) : List Insight :=
  let logsWithSleep := logs.filter (fun l => jsTruthyRat l.sleep_hours && jsTruthyInt l.sleep_quality)
  if logsWithSleep.length < 5 then []
  else
    let goodSleepLogs := logsWithSleep.filter (fun l => 4 ≤ l.sleep_quality.getD 0)
    let poorSleepLogs := logsWithSleep.filter (fun l => l.sleep_quality.getD 0 ≤ 2)
    let part1 : List Insight :=
      if 3 ≤ goodSleepLogs.length ∧ 3 ≤ poorSleepLogs.length then
        let avgSymptomsGoodSleep : ℚ := (totalSymptoms goodSleepLogs : ℚ) / goodSleepLogs.length
        let avgSymptomsPoorSleep : ℚ := (totalSymptoms poorSleepLogs : ℚ) / poorSleepLogs.length
        if avgSymptomsPoorSleep > avgSymptomsGoodSleep * 1.3 then
          [{ icon := "sleep"
             text := "Poor sleep appears to be associated with more symptoms. Prioritizing sleep may help." }]
        else []
      else []
    let lowSleepLogs := logsWithSleep.filter (fun l => l.sleep_hours.getD 0 < 6)
    let part2 : List Insight :=
      if 3 ≤ lowSleepLogs.length then
        let fatigueAfterLowSleep := lowSleepLogs.filter
          (fun l => l.symptoms.any (fun s => s.symptom_id == "fatigue"))
        if (fatigueAfterLowSleep.length : ℚ) / lowSleepLogs.length > 0.5 then
          [{ icon := "battery-low"
             text := "Fatigue commonly follows nights with less than 6 hours of sleep." }]
        else []
      else []
    part1 ++ part2

/-! ### analyzePatterns: mood sub-analysis -/

/-- Mean of `mood_overall` over the truthy-mood logs (`avgMood` in the source). -/
def avgMoodOf (logsWithMood : List DailyLog) : ℚ :=
  (((logsWithMood.map (fun l => l.mood_overall.getD 0)).sum : ℤ) : ℚ) / logsWithMood.length

/-- `analyzeMoodPatterns(logs)`.  The source tests `Math.sqrt(variance) > 2.5`;
since both sides are nonnegative this is the same as `variance > 2.5 ^ 2`,
which keeps the embedding inside `ℚ`. -/
def analyzeMoodPatterns (logs : List DailyLog) : List Insight :=
  let logsWithMood := logs.filter (fun l => jsTruthyInt l.mood_overall)
  if logsWithMood.length < 7 then []
  else
    let moodValues : List ℤ := logsWithMood.map (fun l => l.mood_overall.getD 0)
    let avgMood : ℚ := avgMoodOf logsWithMood
    let variance : ℚ := ((moodValues.map (fun m => ((m : ℚ) - avgMood) ^ 2)).sum) / moodValues.length
    let part1 : List Insight :=
      if variance > (5/2 : ℚ) ^ 2 then
        [{ icon := "emoticon-confused"
           text := "Your mood has been quite variable. This can be common during perimenopause." }]
      else []
    let logsWithBoth := logs.filter (fun l => jsTruthyInt l.mood_overall && jsTruthyInt l.mood_anxiety)
    let part2 : List Insight :=
      if 7 ≤ logsWithBoth.length then
        let highAnxietyLogs := logsWithBoth.filter (fun l => 7 ≤ l.mood_anxiety.getD 0)
        if 3 ≤ highAnxietyLogs.length then
          let avgMoodHighAnxiety : ℚ :=
            (((highAnxietyLogs.map (fun l => l.mood_overall.getD 0)).sum : ℤ) : ℚ)
              / highAnxietyLogs.length
          if avgMoodHighAnxiety < avgMood - 1.5 then
            [{ icon := "alert-circle"
               text := "High anxiety days tend to coincide with lower mood. Consider stress-reduction techniques." }]
          else []
        else []
      else []
    part1 ++ part2

/-! ### analyzePatterns: cycle sub-analysis -/

/-- `CYCLE_PHASES.menstrual.days` from the constants module. -/
def menstrualDays : List ℤ := [1, 2, 3, 4, 5]

/-- `CYCLE_PHASES.follicular.days`. -/
def follicularDays : List ℤ := [6, 7, 8, 9, 10, 11, 12, 13]

/-- `CYCLE_PHASES.ovulation.days`. -/
def ovulationDays : List ℤ := [14, 15, 16]

/-- The four phase names, in the object-key order of `phaseData`. -/
inductive Phase
  | menstrual
  | follicular
  | ovulation
  | luteal
deriving DecidableEq, Repr, Inhabited

/-- The phase name interpolated into the insight text. -/
def phaseName : Phase → String
  | .menstrual => "menstrual"
  | .follicular => "follicular"
  | .ovulation => "ovulation"
  | .luteal => "luteal"

/-- `Math.ceil((logDate - cycleStart) / (1000*60*60*24)) + 1`. -/
def cycleDayOf (logDate cycleStart : ℤ) : ℤ := ceilDays (logDate - cycleStart) + 1

/-- The `if/else if` chain classifying a (range-checked) cycle day. -/
def phaseOf (d : ℤ) : Phase :=
  if d ∈ menstrualDays then .menstrual
  else if d ∈ follicularDays then .follicular
  else if d ∈ ovulationDays then .ovulation
  else .luteal

/-- `phaseData[ph].days` after the loop: the logs whose cycle day lies in
1..35 and classifies to `ph`. -/
def phaseLogs (logs : List DailyLog) (cycleStart : ℤ) (ph : Phase) : List DailyLog :=
  logs.filter (fun l =>
    let d := cycleDayOf l.date cycleStart
    decide (1 ≤ d) && decide (d ≤ 35) && decide (phaseOf d = ph))

/-- The `phaseCounts` array: phases with at least 2 logged days, with their
mean symptom count (`data.symptoms.length / data.days.length`), in object-key
order. -/
def phaseCounts (logs : List DailyLog) (cycleStart : ℤ) : List (Phase × ℚ) :=
  (([Phase.menstrual, Phase.follicular, Phase.ovulation, Phase.luteal].filter
      (fun ph => 2 ≤ (phaseLogs logs cycleStart ph).length)).map
    (fun ph => (ph, (totalSymptoms (phaseLogs logs cycleStart ph) : ℚ)
                      / (phaseLogs logs cycleStart ph).length)))

/-- Comparator of `phaseCounts.sort((a, b) => b.avgSymptoms - a.avgSymptoms)`. -/
def avgGe (a b : Phase × ℚ) : Prop := b.2 ≤ a.2

instance : DecidableRel avgGe := fun a b => inferInstanceAs (Decidable (b.2 ≤ a.2))

instance : IsTotal (Phase × ℚ) avgGe := ⟨fun a b => le_total b.2 a.2⟩

instance : IsTrans (Phase × ℚ) avgGe := ⟨fun _ _ _ h1 h2 => le_trans h2 h1⟩

/-- `analyzeSymptomsByCyclePhase(logs, cycleStartDate)`. -/
def analyzeSymptomsByCyclePhase (logs : List DailyLog) (cycleStartDate : ℤ) : List Insight :=
  let pc := (phaseCounts logs cycleStartDate).insertionSort avgGe
  if 2 ≤ pc.length then
    let worstPhase := pc.headD (Phase.menstrual, 0)
    let lastPhase := pc.getLastD (Phase.menstrual, 0)
    if worstPhase.2 > lastPhase.2 * 1.5 then
      [{ icon := "calendar-sync"
         text := "Symptoms tend to be more pronounced during the " ++ phaseName worstPhase.1
                   ++ " phase of your cycle." }]
    else []
  else []

/-- `analyzeCyclePatterns(logs, cycleStats)`.  `Math.max(...)` over the
(nonempty, nonnegative) absolute deviations is folded from 0. -/
def analyzeCyclePatterns (logs : List DailyLog) (cycleStats : CycleStats) : List Insight :=
  let part1 : List Insight :=
    if 3 ≤ cycleStats.cycleLengths.length then
      let lengths := cycleStats.cycleLengths
      let avgLength : ℚ := ((lengths.sum : ℤ) : ℚ) / lengths.length
      let maxVariation : ℚ := (lengths.map (fun l => |(l : ℚ) - avgLength|)).foldl max 0
      if maxVariation > 7 then
        [{ icon := "calendar-clock"
           text := "Your cycle length varies by up to " ++ toString (jsRound maxVariation)
                     ++ " days, which is common in perimenopause." }]
      else []
    else []
  let part2 : List Insight :=
    match cycleStats.cycles with
    | [] => []
    | recentCycle :: _ => analyzeSymptomsByCyclePhase logs recentCycle.start_date
  part1 ++ part2

/-- The guarded cycle sub-analysis of `analyzePatterns`:
`if (cycleStats && cycleStats.cycles && cycleStats.cycles.length >= 2)`. -/
def cycleInsightsPart (logs : List DailyLog) (cycleStats : Option CycleStats) : List Insight :=
  match cycleStats with
  | some cs => if 2 ≤ cs.cycles.length then analyzeCyclePatterns logs cs else []
  | none => []

/-- `analyzePatterns(logs, cycleStats)`: the top-level entry point.  A JS
caller may pass `null` for `cycleStats`, hence the `Option`. -/
def analyzePatterns (logs : List DailyLog) (cycleStats : Option CycleStats) : PatternResult :=
  if logs.length < 7 then
    { insights := [{ icon := "information"
                     text := "Continue logging for at least a week to see pattern insights." }] }
  else
    { insights :=
        analyzeDayOfWeekPatterns logs ++ analyzeSleepCorrelation logs
          ++ analyzeMoodPatterns logs ++ cycleInsightsPart logs cycleStats }

/-! ### getSymptomCorrelations -/

/-- `log.symptoms.map((s) => s.symptom_id)`. -/
def logSymptomIds (l : DailyLog) : List String := l.symptoms.map (fun s => s.symptom_id)

/-- A log participates in counting iff it has at least two symptoms
(`if (!log.symptoms || log.symptoms.length < 2) continue`). -/
def pairEligible (l : DailyLog) : Bool := decide (2 ≤ l.symptoms.length)

/-- Lexicographic comparison of char lists (JS string order on code units). -/
def charListLe : List Char → List Char → Bool
  | [], _ => true
  | _ :: _, [] => false
  | a :: as, b :: bs => if a < b then true else if b < a then false else charListLe as bs

/-- The string order used by JS `Array.prototype.sort` on symptom ids. -/
def strLe (a b : String) : Bool := charListLe a.data b.data

/-- `[a, b].sort().join('|')`: the canonical unordered pair key. -/
def pairKey (a b : String) : String × String := if strLe a b then (a, b) else (b, a)

/-- The pair keys generated by the double loop `i < j` over one log's ids. -/
def pairsOfIds : List String → List (String × String)
  | [] => []
  | x :: xs => xs.map (pairKey x) ++ pairsOfIds xs

/-- `symptomCounts[id]` after the loop: occurrences of `id` summed over the
pair-eligible logs. -/
def symptomTotal (logs : List DailyLog) (id : String) : ℕ :=
  ((logs.filter pairEligible).map (fun l => (logSymptomIds l).count id)).sum

/-- `pairCounts[pair]` after the loop: occurrences of the pair key summed
over the pair-eligible logs. -/
def pairCount (logs : List DailyLog) (p : String × String) : ℕ :=
  ((logs.filter pairEligible).map (fun l => (pairsOfIds (logSymptomIds l)).count p)).sum

/-- The key set of the JS `pairCounts` object, in first-insertion order
(`Object.entries` iterates string keys in insertion order). -/
def allPairs (logs : List DailyLog) : List (String × String) :=
  ((logs.filter pairEligible).flatMap (fun l => pairsOfIds (logSymptomIds l))).foldl
    (fun acc p => if p ∈ acc then acc else acc ++ [p]) []

/-- One emitted correlation record. -/
structure SymptomCorrelation where
  symptom1 : String
  symptom2 : String
  correlation : ℚ
  coOccurrences : ℕ
deriving DecidableEq, Repr, Inhabited

/-- Comparator of `correlations.sort((a, b) => b.correlation - a.correlation)`. -/
def corrGe (a b : SymptomCorrelation) : Prop := b.correlation ≤ a.correlation

instance : DecidableRel corrGe :=
  fun a b => inferInstanceAs (Decidable (b.correlation ≤ a.correlation))

instance : IsTotal SymptomCorrelation corrGe := ⟨fun a b => le_total b.correlation a.correlation⟩

instance : IsTrans SymptomCorrelation corrGe := ⟨fun _ _ _ h1 h2 => le_trans h2 h1⟩

/-- `getSymptomCorrelations(logs)`. -/
def getSymptomCorrelations (logs : List DailyLog) : List SymptomCorrelation :=
  let candidates : List SymptomCorrelation := (allPairs logs).filterMap (fun p =>
    let count := pairCount logs p
    if count < 3 then none
    else
      let total1 := symptomTotal logs p.1
      let total2 := symptomTotal logs p.2
      if total1 < 3 ∨ total2 < 3 then none
      else
        let correlation : ℚ := (count : ℚ) / (min total1 total2)
        if correlation > 0.4 then
          some { symptom1 := p.1, symptom2 := p.2
                 correlation := correlation, coOccurrences := count }
        else none)
  (candidates.insertionSort corrGe).take 10

/-- Spec-side count used by the totals claim: the number of distinct logs
containing a symptom id, independent of pairing. -/
def specSymptomTotal (logs : List DailyLog) (id : String) : ℕ :=
  (logs.filter (fun l => (logSymptomIds l).contains id)).length

/-! ### Concrete inputs used by witnesses and counterexamples

The Batteries rational-number operations are `@[irreducible]`, which blocks
`decide` from evaluating the embedding at concrete inputs; for this file we
locally restore their ordinary reducibility. -/

attribute [local semireducible] Rat.add Rat.sub Rat.mul Rat.inv Rat.ofScientific

/-- A daily log at day number `d` (midnight UTC) carrying only symptoms. -/
def mkLog (d : ℤ) (syms : List String) : DailyLog :=
  { date := d * msPerDay
    mood_overall := none
    mood_anxiety := none
    mood_energy := none
    sleep_hours := none
    sleep_quality := none
    symptoms := syms.map (fun s => { symptom_id := s, severity := 2 }) }

/-- Six logs with assorted content (below the 7-log data floor). -/
def exSixLogs : List DailyLog :=
  [ { date := 0, mood_overall := some 9, mood_anxiety := some 8, mood_energy := some 2,
      sleep_hours := some 4, sleep_quality := some 1,
      symptoms := [{ symptom_id := "fatigue", severity := 5 }] },
    mkLog 1 ["headache", "fatigue"],
    mkLog 2 ["headache", "fatigue"],
    mkLog 3 ["headache", "fatigue"],
    mkLog 4 ["headache"],
    mkLog 5 [] ]

/-- Seven logs with symptoms but no mood data. -/
def exSevenLogs : List DailyLog :=
  [ mkLog 0 ["a"], mkLog 1 [], mkLog 2 ["a"], mkLog 3 [],
    mkLog 4 ["a"], mkLog 5 [], mkLog 6 [] ]

/-- A periods table holding one open record (most recent, start day 100) and
two closed records (start days 60 and 30).  The gap between the open record's
start and the adjacent record's start is 40 days. -/
def exC2periods : List CyclePeriod :=
  [ { start_date := 100 * msPerDay, end_date := none, length := none },
    { start_date := 60 * msPerDay, end_date := some (64 * msPerDay), length := some 5 },
    { start_date := 30 * msPerDay, end_date := some (35 * msPerDay), length := some 6 } ]

/-! ## C9: below the data floor, `analyzePatterns` returns only the placeholder -/

/-- C9: for fewer than 7 logs, `analyzePatterns` returns exactly one insight,
the `information` placeholder, independently of the logs' content, and no
sub-analysis contributes anything. -/
theorem analyzePatterns_data_floor (logs : List DailyLog) (stats : Option CycleStats)
    (h : logs.length < 7) :
    (analyzePatterns logs stats).insights
      = [{ icon := "information"
           text := "Continue logging for at least a week to see pattern insights." }] := by
  simp [analyzePatterns, h]

/-- Witness for C9 at a concrete 6-log input with nontrivial content. -/
theorem analyzePatterns_data_floor_witness :
    exSixLogs.length < 7 ∧
      (analyzePatterns exSixLogs none).insights
        = [{ icon := "information"
             text := "Continue logging for at least a week to see pattern insights." }] :=
  ⟨by decide, analyzePatterns_data_floor exSixLogs none (by decide)⟩

/-! ## C7: fewer than 2 periods gives the degenerate stats record -/

/-- C7: for every periods table with fewer than 2 entries, `getCycleStats`
returns the degenerate record with null averages and no cycles. -/
theorem getCycleStats_degenerate (periods : List CyclePeriod) (h : periods.length < 2) :
    getCycleStats periods =
      { averageCycleLength := none, averagePeriodLength := none,
        cycleLengths := [], periodLengths := [], cycles := [] } := by
  have hmin : (fetchedPeriods periods).length = min 12 ((closedPeriods periods).length) := by
    simp [fetchedPeriods]
  have hfil : (closedPeriods periods).length ≤ periods.length := by
    simpa [closedPeriods] using List.length_filter_le (fun p => p.end_date.isSome) periods
  have hlt : (fetchedPeriods periods).length < 2 := by omega
  simp [getCycleStats, hlt]

/-- Witness for C7 at the empty table and a single-row table. -/
theorem getCycleStats_degenerate_witness :
    getCycleStats [] =
      { averageCycleLength := none, averagePeriodLength := none,
        cycleLengths := [], periodLengths := [], cycles := [] } ∧
    getCycleStats [{ start_date := 0, end_date := some (4 * msPerDay), length := some 5 }] =
      { averageCycleLength := none, averagePeriodLength := none,
        cycleLengths := [], periodLengths := [], cycles := [] } :=
  ⟨getCycleStats_degenerate [] (by decide),
   getCycleStats_degenerate [{ start_date := 0, end_date := some (4 * msPerDay), length := some 5 }]
     (by decide)⟩

/-! ## C2: an open period is dropped by the query, contrary to the claim -/

/-- C2 counterexample: with an open record starting 40 days after the adjacent
closed record, the 40-day gap does not appear in `cycleLengths`; only the gap
between the two closed records (30 days) does. -/
theorem getCycleStats_open_period_cex :
    (getCycleStats exC2periods).cycleLengths = [30]
      ∧ (40 : ℤ) ∉ (getCycleStats exC2periods).cycleLengths := by decide

/-- C2 amended: an open record (`end_date = null`) contributes nothing at all:
the SQL filter removes it before the gap and length computations, so
`getCycleStats` of a table equals `getCycleStats` of its closed rows. -/
theorem getCycleStats_drops_open_periods (periods : List CyclePeriod) :
    getCycleStats periods = getCycleStats (closedPeriods periods) := by
  have h : closedPeriods (closedPeriods periods) = closedPeriods periods := by
    simp [closedPeriods, List.filter_filter]
  simp only [getCycleStats, fetchedPeriods, h]

/-! ## C6 and C10: getTrends floor, split and symptom trend -/

/-- Length of the sorted log list. -/
theorem sortedByDate_length (logs : List DailyLog) :
    (sortedByDate logs).length = logs.length := by
  simp [sortedByDate]

/-- The first half has `⌊n / 2⌋` logs. -/
theorem trendFirstHalf_length (logs : List DailyLog) :
    (trendFirstHalf logs).length = logs.length / 2 := by
  simp [trendFirstHalf, trendMid, sortedByDate]
  omega

/-- The second half has the remaining logs. -/
theorem trendSecondHalf_length (logs : List DailyLog) :
    (trendSecondHalf logs).length = logs.length - logs.length / 2 := by
  simp [trendSecondHalf, trendMid, sortedByDate]

/-- C6: `getTrends` returns null exactly below 7 logs; it sorts ascending by
date and splits at `⌊n / 2⌋` with the first half never larger. -/
theorem getTrends_floor_split (logs : List DailyLog) :
    ((getTrends logs = none) ↔ logs.length < 7)
    ∧ (trendFirstHalf logs).length = logs.length / 2
    ∧ (trendSecondHalf logs).length = logs.length - logs.length / 2
    ∧ (trendFirstHalf logs).length ≤ (trendSecondHalf logs).length
    ∧ List.Sorted dateLe (sortedByDate logs) := by
  refine ⟨⟨fun h => ?_, fun h => by simp [getTrends, h]⟩,
    trendFirstHalf_length logs, trendSecondHalf_length logs, ?_, ?_⟩
  · by_contra h7
    simp [getTrends, h7] at h
  · rw [trendFirstHalf_length, trendSecondHalf_length]
    omega
  · simpa [sortedByDate] using List.sorted_insertionSort dateLe logs

/-- Witness for C6: at exactly 7 logs the summary is non-null and the split
is 3 / 4. -/
theorem getTrends_floor_split_witness :
    (getTrends exSevenLogs).isSome = true
      ∧ (trendFirstHalf exSevenLogs).length = 3
      ∧ (trendSecondHalf exSevenLogs).length = 4 := by
  have h := getTrends_floor_split exSevenLogs
  have hlen : exSevenLogs.length = 7 := by decide
  refine ⟨?_, ?_, ?_⟩
  · rcases hopt : getTrends exSevenLogs with _ | t
    · have := h.1.mp hopt
      omega
    · rfl
  · rw [h.2.1, hlen]
  · rw [h.2.2.1, hlen]

/-- C10: whenever `getTrends` returns a summary, its `symptomTrend` is an
actual number (the two symptom-per-day divisions are well defined), never
null. -/
theorem getTrends_symptomTrend_total (logs : List DailyLog) (t : TrendSummary)
    (h : getTrends logs = some t) : t.symptomTrend.isSome = true := by
  by_cases h7 : logs.length < 7
  · simp [getTrends, h7] at h
  · have hf : 0 < (trendFirstHalf logs).length := by
      rw [trendFirstHalf_length]; omega
    have hs : 0 < (trendSecondHalf logs).length := by
      rw [trendSecondHalf_length]; omega
    simp only [getTrends, h7, if_false] at h
    rw [← Option.some.injEq] at h
    cases h
    simp [hf, hs]

/-- Witness for C10: a concrete 7-log input whose summary has a numeric
`symptomTrend` even though `moodTrend` is null. -/
theorem getTrends_symptomTrend_total_witness :
    (getTrends exSevenLogs).isSome = true
      ∧ ((getTrends exSevenLogs).getD default).symptomTrend.isSome = true
      ∧ ((getTrends exSevenLogs).getD default).moodTrend = none := by
  refine ⟨by decide, ?_, by decide⟩
  exact getTrends_symptomTrend_total exSevenLogs _ (by decide)

/-! ## C4: cycle lengths are exact midnight-truncated day differences -/

/-- On midnight-aligned timestamps the ceiling division is exact. -/
theorem ceilDays_mul_sub (d e : ℤ) :
    ceilDays (d * msPerDay - e * msPerDay) = d - e := by
  have hms : ((msPerDay : ℤ) : ℚ) ≠ 0 := by norm_num [msPerDay]
  rw [ceilDays, show ((d * msPerDay - e * msPerDay : ℤ) : ℚ)
        = ((d - e : ℤ) : ℚ) * ((msPerDay : ℤ) : ℚ) by push_cast; ring,
    mul_div_cancel_right₀ _ hms, Int.ceil_intCast]

/-- Truncating a midnight-aligned timestamp recovers its day number. -/
theorem midnightDay_mul (d : ℤ) : midnightDay (d * msPerDay) = d := by
  have hms : ((msPerDay : ℤ) : ℚ) ≠ 0 := by norm_num [msPerDay]
  rw [midnightDay, show ((d * msPerDay : ℤ) : ℚ) = ((d : ℤ) : ℚ) * ((msPerDay : ℤ) : ℚ) by
      push_cast; ring,
    mul_div_cancel_right₀ _ hms, Int.floor_intCast]

/-- Unfolding `cycleLengthsOf` one step. -/
theorem cycleLengthsOf_cons (a b : CyclePeriod) (t : List CyclePeriod) :
    cycleLengthsOf (a :: b :: t)
      = ceilDays (a.start_date - b.start_date) :: cycleLengthsOf (b :: t) := rfl

/-- Entry `i` of `cycleLengthsOf` comes from rows `i` and `i + 1`. -/
theorem cycleLengthsOf_get (rows : List CyclePeriod) :
    ∀ (i : ℕ) (a b : CyclePeriod), rows.get? i = some a → rows.get? (i + 1) = some b →
      (cycleLengthsOf rows).get? i = some (ceilDays (a.start_date - b.start_date)) := by
  induction rows with
  | nil => intro i a b ha _; simp at ha
  | cons x xs ih =>
    intro i a b ha hb
    cases xs with
    | nil =>
      exfalso
      cases i <;> simp at hb
    | cons y t =>
      cases i with
      | zero =>
        simp only [List.get?_cons_zero, List.get?_cons_succ, Option.some.injEq] at ha hb
        subst ha; subst hb
        rw [cycleLengthsOf_cons]
        rfl
      | succ n =>
        simp only [List.get?_cons_succ] at ha hb
        rw [cycleLengthsOf_cons]
        simpa using ih n a b ha hb

/-- Adjacent pairs of a prefix are adjacent pairs of the list. -/
theorem take_zip_tail {α : Type} (l : List α) :
    ∀ n : ℕ, (l.take n).zip (l.take n).tail = (l.zip l.tail).take (n - 1) := by
  induction l with
  | nil => intro n; simp
  | cons x xs ih =>
    intro n
    cases n with
    | zero => simp
    | succ m =>
      cases xs with
      | nil => cases m <;> simp
      | cons y t =>
        cases m with
        | zero => simp
        | succ k =>
          have h := ih (k + 1)
          simp only [List.take_succ_cons, List.tail_cons, List.zip_cons_cons] at h ⊢
          rw [h]
          simp

/-- C4: for a most-recent-first table of at least 2 closed, midnight-aligned
periods, every produced cycle length is exactly the difference of the two
start dates' midnight-truncated day numbers (a 28-day gap yields exactly 28),
and when every adjacent gap is 28 days the whole list is 28s and the rounded
average is 28. -/
theorem getCycleStats_cycleLengths_spec (periods : List CyclePeriod)
    (hsorted : List.Sorted startDateGe periods)
    (hclosed : ∀ p ∈ periods, p.end_date.isSome = true)
    (halign : ∀ p ∈ periods, p.start_date % msPerDay = 0)
    (h2 : 2 ≤ periods.length) :
    (∀ (i : ℕ) (a b : CyclePeriod), i + 1 < 12 →
        periods.get? i = some a → periods.get? (i + 1) = some b →
        (getCycleStats periods).cycleLengths.get? i
          = some (midnightDay a.start_date - midnightDay b.start_date))
    ∧ ((∀ pr ∈ periods.zip periods.tail, pr.1.start_date - pr.2.start_date = 28 * msPerDay) →
        (getCycleStats periods).cycleLengths = List.replicate (min periods.length 12 - 1) 28
          ∧ (getCycleStats periods).averageCycleLength = some 28) := by
  have hclosedeq : closedPeriods periods = periods := by
    rw [closedPeriods, List.filter_eq_self]
    exact hclosed
  have hsorteq : periods.insertionSort startDateGe = periods := hsorted.insertionSort_eq
  have hrows : fetchedPeriods periods = periods.take 12 := by
    rw [fetchedPeriods, hclosedeq, hsorteq]
  have hrlen : (periods.take 12).length = min 12 periods.length := List.length_take 12 periods
  have hge2 : ¬((periods.take 12).length < 2) := by omega
  have hcl : (getCycleStats periods).cycleLengths = cycleLengthsOf (periods.take 12) := by
    simp only [getCycleStats, hrows, hge2, if_false]
  have hdivall : ∀ p ∈ periods, ∃ d : ℤ, p.start_date = d * msPerDay := by
    intro p hp
    have h := halign p hp
    refine ⟨p.start_date / msPerDay, ?_⟩
    simp only [msPerDay] at h ⊢
    omega
  constructor
  · intro i a b hi ha hb
    have ha' : (periods.take 12).get? i = some a := by
      rw [List.get?_take (by omega)]; exact ha
    have hb' : (periods.take 12).get? (i + 1) = some b := by
      rw [List.get?_take hi]; exact hb
    obtain ⟨da, hda⟩ := hdivall a (List.get?_mem ha)
    obtain ⟨db, hdb⟩ := hdivall b (List.get?_mem hb)
    rw [hcl, cycleLengthsOf_get (periods.take 12) i a b ha' hb', hda, hdb,
      ceilDays_mul_sub, midnightDay_mul, midnightDay_mul]
  · intro h28
    have hall : ∀ x ∈ cycleLengthsOf (periods.take 12), x = 28 := by
      intro x hx
      rw [cycleLengthsOf] at hx
      obtain ⟨pr, hpr, rfl⟩ := List.mem_map.mp hx
      have hmem : pr ∈ periods.zip periods.tail := by
        rw [take_zip_tail] at hpr
        exact List.mem_of_mem_take hpr
      rw [h28 pr hmem]
      have h := ceilDays_mul_sub 28 0
      simpa using h
    have hlen2 : (cycleLengthsOf (periods.take 12)).length = min periods.length 12 - 1 := by
      rw [cycleLengthsOf]
      simp only [List.length_map, List.length_zip, List.length_tail, hrlen]
      omega
    have hrepl : cycleLengthsOf (periods.take 12)
        = List.replicate (min periods.length 12 - 1) 28 :=
      List.eq_replicate_iff.mpr ⟨hlen2, hall⟩
    have hk : 1 ≤ min periods.length 12 - 1 := by omega
    refine ⟨by rw [hcl, hrepl], ?_⟩
    have havg : (getCycleStats periods).averageCycleLength
        = if 0 < (cycleLengthsOf (periods.take 12)).length then
            some (jsRound ((((cycleLengthsOf (periods.take 12)).sum : ℤ) : ℚ)
              / (cycleLengthsOf (periods.take 12)).length))
          else none := by
      simp only [getCycleStats, hrows, hge2, if_false]
    rw [havg, hrepl]
    have hpos : 0 < (List.replicate (min periods.length 12 - 1) (28 : ℤ)).length := by
      simp only [List.length_replicate]
      omega
    rw [if_pos hpos]
    have hsum : (List.replicate (min periods.length 12 - 1) (28 : ℤ)).sum
        = (min periods.length 12 - 1 : ℕ) * 28 := by
      simp [List.sum_replicate, mul_comm]
    rw [hsum]
    have hne : ((min periods.length 12 - 1 : ℕ) : ℚ) ≠ 0 := by
      simp only [ne_eq, Nat.cast_eq_zero]
      omega
    have : ((((min periods.length 12 - 1 : ℕ) * 28 : ℤ)) : ℚ)
        / ((List.replicate (min periods.length 12 - 1) (28 : ℤ)).length : ℚ) = 28 := by
      simp only [List.length_replicate]
      push_cast
      rw [mul_comm]
      rw [mul_div_assoc, div_self hne, mul_one]
    rw [this]
    norm_num [jsRound]

/-- A table of three closed periods, most recent first, 28 days apart. -/
def exC4periods : List CyclePeriod :=
  [ { start_date := 56 * msPerDay, end_date := some (60 * msPerDay), length := some 5 },
    { start_date := 28 * msPerDay, end_date := some (32 * msPerDay), length := some 5 },
    { start_date := 0, end_date := some (4 * msPerDay), length := some 5 } ]

/-- Witness for C4: three periods exactly 28 days apart give
`cycleLengths = [28, 28]` and average 28. -/
theorem getCycleStats_cycleLengths_spec_witness :
    (getCycleStats exC4periods).cycleLengths = [28, 28]
      ∧ (getCycleStats exC4periods).averageCycleLength = some 28 := by
  have h := (getCycleStats_cycleLengths_spec exC4periods (by decide) (by decide)
    (by decide) (by decide)).2 (by decide)
  simpa using h

/-! ## C3: the per-symptom totals count only pair-eligible logs -/

/-- Three logs with both symptoms, one with only `a`, one with only `b`. -/
def exC3logs : List DailyLog :=
  [ mkLog 0 ["a", "b"], mkLog 1 ["a", "b"], mkLog 2 ["a", "b"],
    mkLog 3 ["a"], mkLog 4 ["b"] ]

/-- C3 counterexample: the log containing `a` alone is a distinct log
containing `a`, yet the total used by `getSymptomCorrelations` is 3, not 4;
consequently the emitted correlation is 1, where the claim's
distinct-log-count formula would give 3/4. -/
theorem symptomTotal_pairing_cex :
    symptomTotal exC3logs "a" = 3 ∧ specSymptomTotal exC3logs "a" = 4
      ∧ (getSymptomCorrelations exC3logs).map (fun r => r.correlation) = [1]
      ∧ (pairCount exC3logs ("a", "b") : ℚ)
          / (min (specSymptomTotal exC3logs "a") (specSymptomTotal exC3logs "b"))
          = 3 / 4 := by decide

/-- C3 amended: with symptom ids unique within each log, the per-symptom
total equals the number of distinct logs that have at least two symptoms and
contain the id (logs where the symptom appears with fewer than two symptoms
total are not counted). -/
theorem symptomTotal_eq_length (logs : List DailyLog) (id : String)
    (hnd : ∀ l ∈ logs, (logSymptomIds l).Nodup) :
    symptomTotal logs id
      = (logs.filter (fun l => pairEligible l && decide (id ∈ logSymptomIds l))).length := by
  induction logs with
  | nil => rfl
  | cons l ls ih =>
    have hndl : (logSymptomIds l).Nodup := hnd l (List.mem_cons_self l ls)
    have ih' := ih (fun x hx => hnd x (List.mem_cons_of_mem l hx))
    by_cases he : pairEligible l
    · by_cases hm : id ∈ logSymptomIds l
      · have hcount : (logSymptomIds l).count id = 1 := List.count_eq_one_of_mem hndl hm
        simp [symptomTotal, List.filter_cons, he, hm, hcount] at ih' ⊢
        omega
      · have hcount : (logSymptomIds l).count id = 0 := List.count_eq_zero_of_not_mem hm
        simp [symptomTotal, List.filter_cons, he, hm, hcount] at ih' ⊢
        exact ih'
    · have he' : pairEligible l = false := by simpa using he
      simp [symptomTotal, List.filter_cons, he'] at ih' ⊢
      exact ih'

/-- The 3-of-5 example: both symptoms in 3 logs, 2 logs without symptoms. -/
def ex35logs : List DailyLog :=
  [ mkLog 0 ["a", "b"], mkLog 1 ["a", "b"], mkLog 2 ["a", "b"],
    mkLog 3 [], mkLog 4 [] ]

/-- Witness for the amended C3: in the 3-of-5 example each total is 3 and the
single emitted correlation is 1.0 with co-occurrence count 3. -/
theorem symptomTotal_eq_length_witness :
    symptomTotal ex35logs "a" = 3 ∧ symptomTotal ex35logs "b" = 3
      ∧ (getSymptomCorrelations ex35logs).map
          (fun r => (r.symptom1, r.symptom2, r.correlation, r.coOccurrences))
        = [("a", "b", (1 : ℚ), 3)] := by
  refine ⟨?_, ?_, by decide⟩
  · rw [symptomTotal_eq_length ex35logs "a" (by decide)]; decide
  · rw [symptomTotal_eq_length ex35logs "b" (by decide)]; decide

/-! ## C5: shape of the correlation output -/

/-- Both components of a generated pair key come from the id list. -/
theorem mem_pairsOfIds {ids : List String} {p : String × String}
    (hp : p ∈ pairsOfIds ids) : p.1 ∈ ids ∧ p.2 ∈ ids := by
  induction ids with
  | nil => simp [pairsOfIds] at hp
  | cons x xs ih =>
    simp only [pairsOfIds, List.mem_append, List.mem_map] at hp
    rcases hp with ⟨y, hy, hk⟩ | hp
    · rw [pairKey] at hk
      by_cases hxy : strLe x y
      · rw [if_pos hxy] at hk
        cases hk
        exact ⟨List.mem_cons_self x xs, List.mem_cons_of_mem x hy⟩
      · rw [if_neg hxy] at hk
        cases hk
        exact ⟨List.mem_cons_of_mem x hy, List.mem_cons_self x xs⟩
    · have h := ih hp
      exact ⟨List.mem_cons_of_mem x h.1, List.mem_cons_of_mem x h.2⟩

/-- A pair key determines its two components up to swap. -/
theorem pairKey_cases {x y : String} {p : String × String} (h : pairKey x y = p) :
    (x = p.1 ∧ y = p.2) ∨ (x = p.2 ∧ y = p.1) := by
  rw [pairKey] at h
  by_cases hxy : strLe x y
  · rw [if_pos hxy] at h
    cases h
    exact Or.inl ⟨rfl, rfl⟩
  · rw [if_neg hxy] at h
    cases h
    exact Or.inr ⟨rfl, rfl⟩

/-- Within one duplicate-free log, a pair key occurs at most as often as each
of its components. -/
theorem count_pairsOfIds_le (ids : List String) (hnd : ids.Nodup) (p : String × String) :
    (pairsOfIds ids).count p ≤ ids.count p.1
      ∧ (pairsOfIds ids).count p ≤ ids.count p.2 := by
  induction ids with
  | nil => simp [pairsOfIds]
  | cons x xs ih =>
    have hx : x ∉ xs := (List.nodup_cons.mp hnd).1
    have hxs : xs.Nodup := (List.nodup_cons.mp hnd).2
    obtain ⟨ih1, ih2⟩ := ih hxs
    have hsplit : (pairsOfIds (x :: xs)).count p
        = (xs.map (pairKey x)).count p + (pairsOfIds xs).count p := by
      simp [pairsOfIds, List.count_append]
    have hmap : (xs.map (pairKey x)).count p
        = xs.countP (fun y => pairKey x y == p) := by
      rw [List.count, List.countP_map]
      rfl
    have hboundOne : ∀ c : String, (∀ y, pairKey x y = p → y = c) →
        (xs.map (pairKey x)).count p ≤ xs.count c := by
      intro c hc
      rw [hmap, List.count]
      exact List.countP_mono_left (fun y _ hy => by
        have := hc y (by simpa using hy)
        simpa using this)
    have hrecZero : ∀ c : String, c = p.1 ∨ c = p.2 → c ∉ xs →
        (pairsOfIds xs).count p = 0 := by
      intro c hcp hcnot
      rw [List.count_eq_zero]
      intro hmem
      have h := mem_pairsOfIds hmem
      rcases hcp with rfl | rfl
      · exact hcnot h.1
      · exact hcnot h.2
    have hcount1 : ∀ c : String, xs.count c ≤ 1 :=
      fun c => List.nodup_iff_count_le_one.mp hxs c
    constructor
    · -- bound by count of p.1
      rcases eq_or_ne x p.1 with hx1 | hx1
      · have hmle : (xs.map (pairKey x)).count p ≤ 1 := by
          rcases eq_or_ne p.2 x with h2x | h2x
          · have h0 : (xs.map (pairKey x)).count p ≤ xs.count x := by
              apply hboundOne
              intro y hy
              rcases pairKey_cases hy with ⟨_, h⟩ | ⟨_, h⟩
              · rw [h, h2x]
              · rw [h, ← hx1]
            have hz : xs.count x = 0 := List.count_eq_zero_of_not_mem hx
            omega
          · have h0 : (xs.map (pairKey x)).count p ≤ xs.count p.2 := by
              apply hboundOne
              intro y hy
              rcases pairKey_cases hy with ⟨_, h⟩ | ⟨hx2, _⟩
              · exact h
              · exact absurd hx2.symm h2x
            exact h0.trans (hcount1 p.2)
        have hc1 : (x :: xs).count p.1 = xs.count p.1 + 1 := by
          rw [← hx1, List.count_cons_self]
        have hc1' : xs.count p.1 = xs.count x := by rw [hx1]
        rw [hsplit, hc1]
        omega
      · rcases eq_or_ne x p.2 with hx2 | hx2
        · have hrz : (pairsOfIds xs).count p = 0 := by
            apply hrecZero p.2 (Or.inr rfl)
            rw [← hx2]
            exact hx
          have hmle : (xs.map (pairKey x)).count p ≤ xs.count p.1 := by
            apply hboundOne
            intro y hy
            rcases pairKey_cases hy with ⟨hxx, _⟩ | ⟨_, h⟩
            · exact absurd hxx hx1
            · exact h
          rw [hsplit, hrz, List.count_cons_of_ne (fun h => hx1 h.symm)]
          omega
        · have hmz : (xs.map (pairKey x)).count p = 0 := by
            rw [hmap, List.countP_eq_zero]
            intro y _ hy
            rcases pairKey_cases (by simpa using hy) with ⟨hxx, _⟩ | ⟨hxx, _⟩
            · exact absurd hxx hx1
            · exact absurd hxx hx2
          rw [hsplit, hmz, List.count_cons_of_ne (fun h => hx1 h.symm)]
          omega
    · -- bound by count of p.2, symmetric
      rcases eq_or_ne x p.2 with hx2 | hx2
      · have hmle : (xs.map (pairKey x)).count p ≤ 1 := by
          rcases eq_or_ne p.1 x with h1x | h1x
          · have h0 : (xs.map (pairKey x)).count p ≤ xs.count x := by
              apply hboundOne
              intro y hy
              rcases pairKey_cases hy with ⟨_, h⟩ | ⟨_, h⟩
              · rw [h, ← hx2]
              · rw [h, h1x]
            have hz : xs.count x = 0 := List.count_eq_zero_of_not_mem hx
            omega
          · have h0 : (xs.map (pairKey x)).count p ≤ xs.count p.1 := by
              apply hboundOne
              intro y hy
              rcases pairKey_cases hy with ⟨hx1', _⟩ | ⟨_, h⟩
              · exact absurd hx1'.symm h1x
              · exact h
            exact h0.trans (hcount1 p.1)
        have hc2 : (x :: xs).count p.2 = xs.count p.2 + 1 := by
          rw [← hx2, List.count_cons_self]
        have hc2' : xs.count p.2 = xs.count x := by rw [hx2]
        rw [hsplit, hc2]
        omega
      · rcases eq_or_ne x p.1 with hx1 | hx1
        · have hrz : (pairsOfIds xs).count p = 0 := by
            apply hrecZero p.1 (Or.inl rfl)
            rw [← hx1]
            exact hx
          have hmle : (xs.map (pairKey x)).count p ≤ xs.count p.2 := by
            apply hboundOne
            intro y hy
            rcases pairKey_cases hy with ⟨_, h⟩ | ⟨hxx, _⟩
            · exact h
            · exact absurd hxx hx2
          rw [hsplit, hrz, List.count_cons_of_ne (fun h => hx2 h.symm)]
          omega
        · have hmz : (xs.map (pairKey x)).count p = 0 := by
            rw [hmap, List.countP_eq_zero]
            intro y _ hy
            rcases pairKey_cases (by simpa using hy) with ⟨hxx, _⟩ | ⟨hxx, _⟩
            · exact absurd hxx hx1
            · exact absurd hxx hx2
          rw [hsplit, hmz, List.count_cons_of_ne (fun h => hx2 h.symm)]
          omega

/-- Summed over the pair-eligible logs: the pair count never exceeds either
symptom total. -/
theorem pairCount_le_symptomTotal (logs : List DailyLog) (p : String × String)
    (hnd : ∀ l ∈ logs, (logSymptomIds l).Nodup) :
    pairCount logs p ≤ symptomTotal logs p.1
      ∧ pairCount logs p ≤ symptomTotal logs p.2 := by
  induction logs with
  | nil => simp [pairCount, symptomTotal]
  | cons l ls ih =>
    have hndl : (logSymptomIds l).Nodup := hnd l (List.mem_cons_self l ls)
    have ih' := ih (fun x hx => hnd x (List.mem_cons_of_mem l hx))
    have hone := count_pairsOfIds_le (logSymptomIds l) hndl p
    by_cases he : pairEligible l
    · simp only [pairCount, symptomTotal, List.filter_cons, he, if_true, List.map_cons,
        List.sum_cons] at ih' ⊢
      omega
    · simp only [pairCount, symptomTotal, List.filter_cons, he, if_false] at ih' ⊢
      exact ih'

/-- C5: with symptom ids unique within each log, `getSymptomCorrelations`
returns at most 10 records, sorted by non-increasing correlation, every
record having `0.4 < correlation ≤ 1` and at least 3 co-occurrences. -/
theorem getSymptomCorrelations_spec (logs : List DailyLog)
    (hnd : ∀ l ∈ logs, (logSymptomIds l).Nodup) :
    (getSymptomCorrelations logs).length ≤ 10
    ∧ List.Sorted corrGe (getSymptomCorrelations logs)
    ∧ ∀ r ∈ getSymptomCorrelations logs,
        (0.4 : ℚ) < r.correlation ∧ r.correlation ≤ 1 ∧ 3 ≤ r.coOccurrences := by
  refine ⟨List.length_take_le 10 _, ?_, ?_⟩
  · exact List.Pairwise.sublist (List.take_sublist 10 _)
      (List.sorted_insertionSort corrGe _)
  · intro r hr
    have hr1 : r ∈ List.insertionSort corrGe _ := List.mem_of_mem_take hr
    have hr2 := (List.mem_insertionSort corrGe).mp hr1
    obtain ⟨p, hpmem, hp⟩ := List.mem_filterMap.mp hr2
    by_cases h3 : pairCount logs p < 3
    · simp [h3] at hp
    · by_cases h4 : symptomTotal logs p.1 < 3 ∨ symptomTotal logs p.2 < 3
      · simp [h3, h4] at hp
      · by_cases h5 : (0.4 : ℚ) < (pairCount logs p : ℚ)
            / ((min (symptomTotal logs p.1) (symptomTotal logs p.2) : ℕ) : ℚ)
        · simp only [h3, if_false, h4, h5, gt_iff_lt, if_true, Option.some.injEq] at hp
          subst hp
          refine ⟨h5, ?_, Nat.le_of_not_lt h3⟩
          have hle := pairCount_le_symptomTotal logs p hnd
          have hminn : 3 ≤ min (symptomTotal logs p.1) (symptomTotal logs p.2) := by omega
          have hpos : (0 : ℚ) < ((min (symptomTotal logs p.1) (symptomTotal logs p.2) : ℕ) : ℚ) := by
            exact_mod_cast Nat.lt_of_lt_of_le (by omega) hminn
          show (pairCount logs p : ℚ)
            / ((min (symptomTotal logs p.1) (symptomTotal logs p.2) : ℕ) : ℚ) ≤ 1
          rw [div_le_one hpos]
          have hcle : pairCount logs p ≤ min (symptomTotal logs p.1) (symptomTotal logs p.2) :=
            le_min hle.1 hle.2
          exact_mod_cast hcle
        · rw [Nat.cast_min] at h5
          simp [h3, h4] at hp
          exact absurd hp.1 h5

/-- Witness for C5 at the 3-of-5 example input. -/
theorem getSymptomCorrelations_spec_witness :
    (getSymptomCorrelations ex35logs).length ≤ 10
      ∧ List.Sorted corrGe (getSymptomCorrelations ex35logs)
      ∧ ((getSymptomCorrelations ex35logs).all (fun r =>
          decide ((0.4 : ℚ) < r.correlation) && decide (r.correlation ≤ 1)
            && decide (3 ≤ r.coOccurrences))) = true := by
  obtain ⟨h1, h2, h3⟩ := getSymptomCorrelations_spec ex35logs (by decide)
  refine ⟨h1, h2, ?_⟩
  rw [List.all_eq_true]
  intro r hr
  obtain ⟨ha, hb, hc⟩ := h3 r hr
  simp [ha, hb, hc]

/-! ## C1 and C8: the insight inventory of `analyzePatterns` -/

/-- The day-of-week sub-analysis only emits `calendar-week` insights. -/
theorem icons_dayOfWeek {logs : List DailyLog} {ins : Insight}
    (h : ins ∈ analyzeDayOfWeekPatterns logs) : ins.icon = "calendar-week" := by
  simp only [analyzeDayOfWeekPatterns] at h
  split at h
  · rw [List.mem_singleton] at h
    subst h
    rfl
  · simp at h

/-- The sleep sub-analysis only emits `sleep` and `battery-low` insights. -/
theorem icons_sleep {logs : List DailyLog} {ins : Insight}
    (h : ins ∈ analyzeSleepCorrelation logs) :
    ins.icon = "sleep" ∨ ins.icon = "battery-low" := by
  simp only [analyzeSleepCorrelation] at h
  split at h
  · simp at h
  · rw [List.mem_append] at h
    rcases h with h | h
    · split at h
      · split at h
        · rw [List.mem_singleton] at h
          subst h
          exact Or.inl rfl
        · simp at h
      · simp at h
    · split at h
      · split at h
        · rw [List.mem_singleton] at h
          subst h
          exact Or.inr rfl
        · simp at h
      · simp at h

/-- The mood sub-analysis only emits `emoticon-confused` and `alert-circle`
insights. -/
theorem icons_mood {logs : List DailyLog} {ins : Insight}
    (h : ins ∈ analyzeMoodPatterns logs) :
    ins.icon = "emoticon-confused" ∨ ins.icon = "alert-circle" := by
  simp only [analyzeMoodPatterns] at h
  split at h
  · simp at h
  · rw [List.mem_append] at h
    rcases h with h | h
    · split at h
      · rw [List.mem_singleton] at h
        subst h
        exact Or.inl rfl
      · simp at h
    · split at h
      · split at h
        · split at h
          · rw [List.mem_singleton] at h
            subst h
            exact Or.inr rfl
          · simp at h
        · simp at h
      · simp at h

/-- The cycle-phase helper only emits `calendar-sync` insights. -/
theorem icons_cyclePhase {logs : List DailyLog} {start : ℤ} {ins : Insight}
    (h : ins ∈ analyzeSymptomsByCyclePhase logs start) : ins.icon = "calendar-sync" := by
  simp only [analyzeSymptomsByCyclePhase] at h
  split at h
  · split at h
    · rw [List.mem_singleton] at h
      subst h
      rfl
    · simp at h
  · simp at h

/-- The cycle sub-analysis only emits `calendar-clock` and `calendar-sync`
insights. -/
theorem icons_cycle {logs : List DailyLog} {cs : CycleStats} {ins : Insight}
    (h : ins ∈ analyzeCyclePatterns logs cs) :
    ins.icon = "calendar-clock" ∨ ins.icon = "calendar-sync" := by
  simp only [analyzeCyclePatterns] at h
  rw [List.mem_append] at h
  rcases h with h | h
  · split at h
    · split at h
      · rw [List.mem_singleton] at h
        subst h
        exact Or.inl rfl
      · simp at h
    · simp at h
  · rcases hc : cs.cycles with _ | ⟨rc, rest⟩
    · rw [hc] at h
      simp at h
    · rw [hc] at h
      exact Or.inr (icons_cyclePhase h)

/-- The guarded cycle part inherits the cycle icons. -/
theorem icons_cyclePart {logs : List DailyLog} {stats : Option CycleStats} {ins : Insight}
    (h : ins ∈ cycleInsightsPart logs stats) :
    ins.icon = "calendar-clock" ∨ ins.icon = "calendar-sync" := by
  rcases stats with _ | cs
  · simp [cycleInsightsPart] at h
  · simp only [cycleInsightsPart] at h
    split at h
    · exact icons_cycle h
    · simp at h

/-- The rank of an insight type in the fixed sub-analysis order
day-of-week, sleep, mood, cycle. -/
def insightIconRank (s : String) : ℕ :=
  if s = "calendar-week" then 0
  else if s = "sleep" ∨ s = "battery-low" then 1
  else if s = "emoticon-confused" ∨ s = "alert-circle" then 2
  else 3

/-- Seven logs with no symptom, sleep or mood data, on days 0 to 6. -/
def exC1logs : List DailyLog :=
  [mkLog 0 [], mkLog 1 [], mkLog 2 [], mkLog 3 [], mkLog 4 [], mkLog 5 [], mkLog 6 []]

/-- Cycle stats with two cycles and widely varying cycle lengths. -/
def exC1stats : CycleStats :=
  { averageCycleLength := some 33
    averagePeriodLength := some 5
    cycleLengths := [20, 30, 50]
    periodLengths := [5, 5]
    cycles :=
      [ { start_date := 0, end_date := some (4 * msPerDay), length := some 5 },
        { start_date := -28 * msPerDay, end_date := some (-24 * msPerDay), length := some 5 } ] }

/-- C1 counterexample: with varying cycle lengths the code emits a
cycle-length-variability insight (`calendar-clock`), which is none of the six
enumerated types. -/
theorem analyzePatterns_insight_types_cex :
    ¬ (∀ ins ∈ (analyzePatterns exC1logs (some exC1stats)).insights,
        ins.icon ∈ (["calendar-week", "sleep", "battery-low", "emoticon-confused",
          "alert-circle", "calendar-sync"] : List String)) := by decide

/-- C1 amended: above the data floor, every insight of `analyzePatterns` is
one of the seven emitted types (the six enumerated ones plus the
cycle-length-variability flag `calendar-clock`), and the list is ordered by
sub-analysis: day-of-week, then sleep, then mood, then cycle. -/
theorem analyzePatterns_insight_types (logs : List DailyLog) (stats : Option CycleStats)
    (h7 : 7 ≤ logs.length) :
    (∀ ins ∈ (analyzePatterns logs stats).insights,
        ins.icon ∈ (["calendar-week", "sleep", "battery-low", "emoticon-confused",
          "alert-circle", "calendar-clock", "calendar-sync"] : List String))
    ∧ List.Pairwise (fun a b : Insight => insightIconRank a.icon ≤ insightIconRank b.icon)
        (analyzePatterns logs stats).insights := by
  have hn7 : ¬ logs.length < 7 := by omega
  have hsplit : (analyzePatterns logs stats).insights
      = analyzeDayOfWeekPatterns logs ++ (analyzeSleepCorrelation logs
        ++ (analyzeMoodPatterns logs ++ cycleInsightsPart logs stats)) := by
    simp [analyzePatterns, hn7]
  have hr0 : ∀ i ∈ analyzeDayOfWeekPatterns logs, insightIconRank i.icon = 0 := by
    intro i h
    rw [icons_dayOfWeek h]
    decide
  have hr1 : ∀ i ∈ analyzeSleepCorrelation logs, insightIconRank i.icon = 1 := by
    intro i h
    rcases icons_sleep h with h' | h' <;> rw [h'] <;> decide
  have hr2 : ∀ i ∈ analyzeMoodPatterns logs, insightIconRank i.icon = 2 := by
    intro i h
    rcases icons_mood h with h' | h' <;> rw [h'] <;> decide
  have hr3 : ∀ i ∈ cycleInsightsPart logs stats, insightIconRank i.icon = 3 := by
    intro i h
    rcases icons_cyclePart h with h' | h' <;> rw [h'] <;> decide
  constructor
  · intro ins h
    rw [hsplit] at h
    simp only [List.mem_append] at h
    rcases h with h | h | h | h
    · rw [icons_dayOfWeek h]
      decide
    · rcases icons_sleep h with h' | h' <;> rw [h'] <;> decide
    · rcases icons_mood h with h' | h' <;> rw [h'] <;> decide
    · rcases icons_cyclePart h with h' | h' <;> rw [h'] <;> decide
  · rw [hsplit]
    refine List.pairwise_append.mpr ⟨?_, List.pairwise_append.mpr
      ⟨?_, List.pairwise_append.mpr ⟨?_, ?_, ?_⟩, ?_⟩, ?_⟩
    · exact List.pairwise_of_forall_mem_list (fun a ha b hb => by
        rw [hr0 a ha, hr0 b hb])
    · exact List.pairwise_of_forall_mem_list (fun a ha b hb => by
        rw [hr1 a ha, hr1 b hb])
    · exact List.pairwise_of_forall_mem_list (fun a ha b hb => by
        rw [hr2 a ha, hr2 b hb])
    · exact List.pairwise_of_forall_mem_list (fun a ha b hb => by
        rw [hr3 a ha, hr3 b hb])
    · intro a ha b hb
      rw [hr2 a ha, hr3 b hb]
      omega
    · intro a ha b hb
      rw [hr1 a ha]
      rw [List.mem_append] at hb
      rcases hb with hb | hb
      · rw [hr2 b hb]; omega
      · rw [hr3 b hb]; omega
    · intro a ha b hb
      rw [hr0 a ha]
      exact Nat.zero_le _

/-- Witness for the amended C1 at a concrete input whose output contains a
`calendar-clock` insight. -/
theorem analyzePatterns_insight_types_witness :
    ((analyzePatterns exC1logs (some exC1stats)).insights.all (fun ins =>
        decide (ins.icon ∈ (["calendar-week", "sleep", "battery-low", "emoticon-confused",
          "alert-circle", "calendar-clock", "calendar-sync"] : List String)))) = true
      ∧ ((analyzePatterns exC1logs (some exC1stats)).insights.map (fun i => i.icon))
          = ["calendar-clock"] := by
  have h := (analyzePatterns_insight_types exC1logs (some exC1stats) (by decide)).1
  refine ⟨?_, by decide⟩
  rw [List.all_eq_true]
  intro ins hins
  simpa using h ins hins

/-- The sorted day-count list always has 7 entries. -/
theorem sortedDayCounts_length (logs : List DailyLog) :
    (sortedDayCounts logs).length = 7 := by
  rw [sortedDayCounts, List.length_insertionSort, dayCounts, List.length_map,
    List.length_range]

/-- The head of the sorted day-count list carries the busiest weekday's
count, and entry 6 the least-busy weekday's count. -/
theorem sortedDayCounts_head_getD (logs : List DailyLog) (dmax dmin : ℕ)
    (hdmax : dmax < 7) (hdmin : dmin < 7)
    (hmax : ∀ d < 7, symptomCountByDay logs d ≤ symptomCountByDay logs dmax)
    (hmin : ∀ d < 7, symptomCountByDay logs dmin ≤ symptomCountByDay logs d) :
    ((sortedDayCounts logs).headD (0, 0)).2 = symptomCountByDay logs dmax
      ∧ ((sortedDayCounts logs).getD 6 (0, 0)).2 = symptomCountByDay logs dmin := by
  have hlen : (sortedDayCounts logs).length = 7 := sortedDayCounts_length logs
  have hsort : List.Sorted countGe (sortedDayCounts logs) :=
    List.sorted_insertionSort countGe (dayCounts logs)
  have hmemiff : ∀ x : ℕ × ℕ, x ∈ sortedDayCounts logs ↔ x ∈ dayCounts logs :=
    fun x => List.mem_insertionSort countGe
  have hshape : ∀ x ∈ sortedDayCounts logs, ∃ d, d < 7 ∧ x = (d, symptomCountByDay logs d) := by
    intro x hx
    have hx' := (hmemiff x).mp hx
    simp only [dayCounts, List.mem_map, List.mem_range] at hx'
    obtain ⟨d, hd, he⟩ := hx'
    exact ⟨d, hd, he.symm⟩
  have hmaxmem : (dmax, symptomCountByDay logs dmax) ∈ sortedDayCounts logs := by
    rw [hmemiff]
    simp only [dayCounts, List.mem_map, List.mem_range]
    exact ⟨dmax, hdmax, rfl⟩
  have hminmem : (dmin, symptomCountByDay logs dmin) ∈ sortedDayCounts logs := by
    rw [hmemiff]
    simp only [dayCounts, List.mem_map, List.mem_range]
    exact ⟨dmin, hdmin, rfl⟩
  obtain ⟨c0, rest, hc⟩ : ∃ c0 rest, sortedDayCounts logs = c0 :: rest := by
    rcases h : sortedDayCounts logs with _ | ⟨c0, rest⟩
    · rw [h] at hlen
      simp at hlen
    · exact ⟨c0, rest, rfl⟩
  constructor
  · have hheadD : (sortedDayCounts logs).headD (0, 0) = c0 := by rw [hc]; rfl
    rw [hheadD]
    obtain ⟨d0, hd0lt, hd0⟩ := hshape c0 (by rw [hc]; exact List.mem_cons_self c0 rest)
    have hle1 : c0.2 ≤ symptomCountByDay logs dmax := by
      rw [hd0]
      exact hmax d0 hd0lt
    have hge1 : symptomCountByDay logs dmax ≤ c0.2 := by
      have hmem := hmaxmem
      rw [hc] at hmem hsort
      rcases List.mem_cons.mp hmem with heq | hmem'
      · rw [← heq]
      · exact List.rel_of_sorted_cons hsort _ hmem'
    omega
  · have h6lt : 6 < (sortedDayCounts logs).length := by omega
    have hgetD : (sortedDayCounts logs).getD 6 (0, 0)
        = (sortedDayCounts logs).get ⟨6, h6lt⟩ := by
      rw [List.getD_eq_getElem?_getD, List.getElem?_eq_getElem h6lt]
      simp [List.get_eq_getElem]
    rw [hgetD]
    have hbotle : ∀ x ∈ sortedDayCounts logs,
        ((sortedDayCounts logs).get ⟨6, h6lt⟩).2 ≤ x.2 := by
      intro x hx
      obtain ⟨i, hi⟩ := List.mem_iff_get.mp hx
      have hile : i ≤ (⟨6, h6lt⟩ : Fin (sortedDayCounts logs).length) := by
        have hlt := i.isLt
        have h6v : ((⟨6, h6lt⟩ : Fin (sortedDayCounts logs).length) : ℕ) = 6 := rfl
        rw [Fin.le_def, h6v]
        omega
      have hrel := hsort.rel_get_of_le hile
      rw [hi] at hrel
      exact hrel
    obtain ⟨d1, hd1lt, hd1⟩ := hshape _ (List.get_mem (sortedDayCounts logs) 6 h6lt)
    have hge2 : symptomCountByDay logs dmin ≤ ((sortedDayCounts logs).get ⟨6, h6lt⟩).2 := by
      rw [hd1]
      exact hmin d1 hd1lt
    have hle2 := hbotle _ hminmem
    omega

/-- C8 amended: above the data floor, `analyzePatterns` produces the
day-of-week insight exactly when the busiest weekday's symptom count exceeds
the least-busy weekday's count by strictly more than 50 % and the busiest
count exceeds 3. -/
theorem analyzePatterns_dayOfWeek_iff (logs : List DailyLog) (stats : Option CycleStats)
    (dmax dmin : ℕ) (h7 : 7 ≤ logs.length) (hdmax : dmax < 7) (hdmin : dmin < 7)
    (hmax : ∀ d < 7, symptomCountByDay logs d ≤ symptomCountByDay logs dmax)
    (hmin : ∀ d < 7, symptomCountByDay logs dmin ≤ symptomCountByDay logs d) :
    (∃ ins ∈ (analyzePatterns logs stats).insights, ins.icon = "calendar-week")
      ↔ ((symptomCountByDay logs dmin : ℚ) * 1.5 < (symptomCountByDay logs dmax : ℚ)
          ∧ 3 < symptomCountByDay logs dmax) := by
  have hn7 : ¬ logs.length < 7 := by omega
  obtain ⟨htop, hbot⟩ := sortedDayCounts_head_getD logs dmax dmin hdmax hdmin hmax hmin
  have hsplit : (analyzePatterns logs stats).insights
      = analyzeDayOfWeekPatterns logs ++ (analyzeSleepCorrelation logs
        ++ (analyzeMoodPatterns logs ++ cycleInsightsPart logs stats)) := by
    simp [analyzePatterns, hn7]
  by_cases hcond : ((symptomCountByDay logs dmin : ℚ) * 1.5 < (symptomCountByDay logs dmax : ℚ)
      ∧ 3 < symptomCountByDay logs dmax)
  · refine ⟨fun _ => hcond, fun _ => ?_⟩
    refine ⟨{ icon := "calendar-week"
              text := "You tend to experience more symptoms on "
                ++ dayNames.getD ((sortedDayCounts logs).headD (0, 0)).1 "" ++ "s." }, ?_, rfl⟩
    rw [hsplit]
    apply List.mem_append_left
    simp only [analyzeDayOfWeekPatterns]
    rw [if_pos ⟨by rw [htop, hbot]; exact hcond.1, by rw [htop]; exact hcond.2⟩]
    exact List.mem_singleton_self _
  · constructor
    · rintro ⟨ins, hins, hicon⟩
      rw [hsplit] at hins
      simp only [List.mem_append] at hins
      rcases hins with h | h | h | h
      · simp only [analyzeDayOfWeekPatterns] at h
        rw [if_neg] at h
        · simp at h
        · intro hc
          apply hcond
          refine ⟨?_, ?_⟩
          · have h1 := hc.1
            rwa [htop, hbot] at h1
          · have h2 := hc.2
            rwa [htop] at h2
      · rcases icons_sleep h with h' | h' <;>
          exact absurd (h'.symm.trans hicon) (by decide)
      · rcases icons_mood h with h' | h' <;>
          exact absurd (h'.symm.trans hicon) (by decide)
      · rcases icons_cyclePart h with h' | h' <;>
          exact absurd (h'.symm.trans hicon) (by decide)
    · intro hc
      exact absurd hc hcond

/-- Eight logs: one log on each weekday carrying 4 symptoms, plus one extra
Sunday log carrying 2 symptoms, so the busiest weekday has count 6 and every
other weekday count 4 (exactly 50 % more, not strictly more). -/
def exC8logs : List DailyLog :=
  [ mkLog 3 ["s1", "s2", "s3", "s4"], mkLog 4 ["s1", "s2", "s3", "s4"],
    mkLog 5 ["s1", "s2", "s3", "s4"], mkLog 6 ["s1", "s2", "s3", "s4"],
    mkLog 7 ["s1", "s2", "s3", "s4"], mkLog 8 ["s1", "s2", "s3", "s4"],
    mkLog 9 ["s1", "s2", "s3", "s4"], mkLog 10 ["t1", "t2"] ]

/-- C8 counterexample: the busiest count 6 exceeds the least-busy count 4 by
exactly 50 % and exceeds 3, so the claim says the insight fires, but the code
(strict comparison `6 > 6` is false) produces no insight at all. -/
theorem analyzePatterns_dayOfWeek_cex :
    ((List.range 7).map (symptomCountByDay exC8logs)) = [6, 4, 4, 4, 4, 4, 4]
      ∧ ((symptomCountByDay exC8logs 1 : ℚ) * 1.5 ≤ (symptomCountByDay exC8logs 0 : ℚ)
          ∧ 3 < symptomCountByDay exC8logs 0)
      ∧ (analyzePatterns exC8logs none).insights = [] := by decide

/-- Ten Monday logs with 2 symptoms each and ten other-day logs with none. -/
def exMonLogs : List DailyLog :=
  [ mkLog 4 ["m1", "m2"], mkLog 11 ["m1", "m2"], mkLog 18 ["m1", "m2"],
    mkLog 25 ["m1", "m2"], mkLog 32 ["m1", "m2"], mkLog 39 ["m1", "m2"],
    mkLog 46 ["m1", "m2"], mkLog 53 ["m1", "m2"], mkLog 60 ["m1", "m2"],
    mkLog 67 ["m1", "m2"],
    mkLog 0 [], mkLog 1 [], mkLog 2 [], mkLog 3 [], mkLog 5 [],
    mkLog 6 [], mkLog 7 [], mkLog 8 [], mkLog 9 [], mkLog 10 [] ]

/-- Witness for the amended C8: in the Mondays example the insight fires and
names Mondays. -/
theorem analyzePatterns_dayOfWeek_iff_witness :
    (analyzePatterns exMonLogs none).insights
        = [{ icon := "calendar-week"
             text := "You tend to experience more symptoms on Mondays." }]
      ∧ ((analyzePatterns exMonLogs none).insights.any
          (fun i => i.icon == "calendar-week")) = true := by
  refine ⟨by decide, ?_⟩
  have h := (analyzePatterns_dayOfWeek_iff exMonLogs none 1 0 (by decide) (by decide)
    (by decide) (by decide) (by decide)).mpr (by decide)
  obtain ⟨ins, hins, hicon⟩ := h
  rw [List.any_eq_true]
  exact ⟨ins, hins, by simp [hicon]⟩

end PeriTracker
